import Mathlib

/-!
Verification of the `mytunnel` dialer (package `dial`): a shallow embedding of
the session pool (`sshClientPool`), the keep-alive liveness engine
(`keep_alive.go`), the dial orchestration (`DialContext`), the pooled-key
derivation (`Config.clientKey` / `passKey`) and the connection wrapper
(`tunnelConn.Close`), together with theorems about their behaviour.

Conventions of the embedding:
* Go `time.Duration` values are `Int` nanoseconds; Go `int`/`int64` are `Int`
  with explicit two's-complement wrapping where a multiplication may overflow.
* The mutex-protected pool is embedded as a sequential state machine: every
  pool operation (`acquire`, `release`, `forget`) is one atomic step, which is
  exactly the linearization guaranteed by the pool's single mutex.
* Channel-based code (`keepAliveLoop`, `sendKeepAliveRequest`) is embedded as
  a step function over an explicit list of events, one event per loop
  iteration, each event recording which `select` arm fired and with which
  value.
* Calls into external collaborators (the constructor `ctor`, `client.Close`,
  `Conn.Close`, the md5 digest) are parameters of the model; invocations of
  `Close` are recorded so that close-exactly-once questions are observable.
-/

namespace MyTunnel

/-! ## Keep-alive configuration (`src/dial/keep_alive.go`) -/

/-- Go `time.Second` in nanoseconds. -/
def timeSecond : Int := 1000000000

/-- Go constant `serverAliveCountMax = 3` (default miss threshold). -/
def defaultServerAliveCountMax : Int := 3

/-- Go constant `serverAliveLagMax = 2 * time.Second` (default lag). -/
def defaultServerAliveLagMax : Int := 2 * timeSecond

/-- `keepAliveConfig` of `keep_alive.go`; the Lean zero structure `{}` is the
Go zero value `keepAliveConfig{}`. -/
structure KeepAliveConfig where
  serverAliveCountMax : Int := 0
  serverAliveInterval : Int := 0
  serverAliveTimeout : Int := 0
  serverAliveLagMax : Int := 0
deriving DecidableEq, Repr

/-- `keepAliveConfig.keepAlive`: the engine is enabled iff the interval is
positive. -/
def KeepAliveConfig.keepAlive (c : KeepAliveConfig) : Bool :=
  c.serverAliveInterval > 0

/-- Two's-complement wrap to a signed 64-bit integer, the behaviour of Go
`int64`/`int` multiplication on a 64-bit platform. -/
def wrap64 (n : Int) : Int :=
  (n + 2 ^ 63) % 2 ^ 64 - 2 ^ 63

/-- Go `strconv.ParseUint(s, 10, 64)`: digits only (no sign), non-empty,
value below `2^64`; `none` is the error case. -/
def goParseUint64 (s : String) : Option Nat :=
  if s.isEmpty then none
  else if s.data.all Char.isDigit then
    let v := s.data.foldl (fun a c => a * 10 + (c.toNat - 48)) 0
    if v < 2 ^ 64 then some v else none
  else none

/-- `kaParse` of `keep_alive.go`: `-1` for an absent value, for repeated
values, for a parse failure and for a value above `math.MaxInt`; otherwise
the parsed value times `units` (a duration multiplication that wraps like
Go `int64`). -/
def kaParse (vals : List String) (units : Int) : Int :=
  match vals with
  | [] => -1
  | [v] =>
    match goParseUint64 v with
    | none => -1
    | some res => if (res : Int) > 2 ^ 63 - 1 then -1 else wrap64 ((res : Int) * units)
  | _ :: _ :: _ => -1

/-- The canonical (lowercase) representative of a rune's Go
`unicode.SimpleFold` orbit, for every orbit that contains an ASCII rune
(as a numeral, to stay kernel-computable). ASCII letters fold with their
case counterpart, and exactly two non-ASCII runes lie in an orbit with
ASCII letters: U+212A KELVIN SIGN (8490) folds with `K`/`k` (107) and
U+017F LATIN SMALL LETTER LONG S (383) folds with `S`/`s` (115) — these
are the only such entries in Go's `caseOrbit` table. Runes of purely
non-ASCII orbits are kept as themselves, which is exact for every
comparison `makeKeepAliveConfig` performs, since keys are only ever
compared against the four ASCII parameter names. -/
def foldLower (c : Char) : Nat :=
  let n := c.toNat
  if n = 8490 then 107
  else if n = 383 then 115
  else if 65 ≤ n ∧ n ≤ 90 then n + 32
  else n

/-- Go `strings.EqualFold`: the strings match rune by rune up to Unicode
simple-fold orbits (`foldLower` models every orbit reachable from the
ASCII parameter names this program compares against). -/
def eqFold (a b : String) : Bool :=
  a.data.map foldLower = b.data.map foldLower

/-- One iteration of the `for k, v := range values` switch in
`makeKeepAliveConfig`. -/
def kaStep (r : KeepAliveConfig) (kv : String × List String) : KeepAliveConfig :=
  if eqFold kv.1 "ServerAliveInterval" then
    { r with serverAliveInterval := kaParse kv.2 timeSecond }
  else if eqFold kv.1 "ServerAliveCountMax" then
    { r with serverAliveCountMax := kaParse kv.2 1 }
  else if eqFold kv.1 "ServerAliveTimeout" then
    { r with serverAliveTimeout := kaParse kv.2 timeSecond }
  else if eqFold kv.1 "ServerAliveLagMax" then
    { r with serverAliveLagMax := kaParse kv.2 timeSecond }
  else r

/-- `makeKeepAliveConfig` of `keep_alive.go`. `url.Values` is embedded as an
association list of parameter name to value list; Go iterates the map in an
unspecified order, the model iterates in list order (the claims below only
concern parameter lists in which at most one key matches each parameter, for
which the order is irrelevant). -/
def makeKeepAliveConfig (values : List (String × List String)) : KeepAliveConfig :=
  let result := values.foldl kaStep ⟨-1, -1, -1, -1⟩
  if !result.keepAlive then {}
  else
    let result :=
      if result.serverAliveTimeout ≤ 0 then
        { result with serverAliveTimeout := result.serverAliveInterval }
      else result
    let result :=
      if result.serverAliveCountMax < 0 then
        { result with serverAliveCountMax := defaultServerAliveCountMax }
      else result
    let result :=
      if result.serverAliveLagMax < 0 then
        { result with serverAliveLagMax := defaultServerAliveLagMax }
      else result
    result

/-- `keepAlive(cli, config)` of `keep_alive.go` spawns `keepAliveLoop` iff
`config.keepAlive()`; this predicate records whether the background loop is
started. -/
def keepAliveStartsLoop (config : KeepAliveConfig) : Bool :=
  config.keepAlive

/-- A value list for which `kaParse` necessarily fails: absent, repeated, not
a base-10 unsigned integer, or above `math.MaxInt`. -/
def kaInvalidVals (vals : List String) : Bool :=
  match vals with
  | [v] =>
    match goParseUint64 v with
    | none => true
    | some res => decide ((res : Int) > 2 ^ 63 - 1)
  | _ => true

inductive KAErr where
  | eof
  | kaTimeout
  | other (n : Nat)
deriving DecidableEq, Repr

/-- How one call of `sendKeepAliveRequest` resolves:
* `pendingErr e`: the leading non-blocking drain of `resp` found the result
  of a previous timed-out probe and it was a non-nil error (a nil pending
  result just falls through to a fresh probe);
* `resp e`: the probe resolved through the `resp` channel (`none` is a nil
  error, an acknowledged probe);
* `timeoutFired took`: the timer fired first and `time.Since(start) = took`
  nanoseconds at the moment `handleTimeout` measures it;
* `activity`: the client's `successfulRead` channel fired first. -/
inductive ProbeOutcome where
  | pendingErr (e : KAErr)
  | resp (e : Option KAErr)
  | timeoutFired (took : Int)
  | activity
deriving DecidableEq, Repr

/-- `sendKeepAliveRequest` of `keep_alive.go`: the returned `error`.
`handleTimeout` discards a timeout whose measured elapsed time is at least
`timeout + lag` (returning nil), otherwise returns `errKeepAliveTimeout`. -/
def sendKeepAliveRequest (o : ProbeOutcome) (timeout lag : Int) : Option KAErr :=
  match o with
  | .pendingErr e => some e
  | .resp e => e
  | .timeoutFired took => if took ≥ timeout + lag then none else some .kaTimeout
  | .activity => none

/-- One `select` resolution of an iteration of `keepAliveLoop`:
* `waitDone`: `cli.Wait()` returned;
* `tick o`: the ticker fired and `sendKeepAliveRequest` resolved as `o`;
* `readActivity`: the outer `cli.successfulRead()` arm fired. -/
inductive LoopEvent where
  | waitDone
  | tick (o : ProbeOutcome)
  | readActivity
deriving DecidableEq, Repr

/-- The mutable locals of `keepAliveLoop` at the top of an iteration. -/
structure LoopState where
  serverAliveCounter : Int
  hadTimeout : Bool
deriving DecidableEq, Repr

/-- Why `keepAliveLoop` returned. Every return path of the Go loop executes
`_ = cli.Close()` first, recorded by the `Bool` paired with the exit below. -/
inductive LoopExit where
  | waitDone
  | eof
  | dead (byTimeout : Bool)
deriving DecidableEq, Repr

/-- The locals of `keepAliveLoop` at loop entry. -/
def loopInit (c : KeepAliveConfig) : LoopState :=
  { serverAliveCounter := c.serverAliveCountMax, hadTimeout := false }

/-- One iteration of the `for` loop of `keepAliveLoop`: the counter
maintenance at the top of the body, then the `select`. An `.inr` result is a
return from the loop; its `Bool` component records that `cli.Close()` was
invoked on that path (every return path of the source does). -/
def loopStep (c : KeepAliveConfig) (st : LoopState) (ev : LoopEvent) :
    LoopState ⊕ (LoopExit × Bool) :=
  let counter :=
    if st.hadTimeout then st.serverAliveCounter - 1 else c.serverAliveCountMax
  match ev with
  | .waitDone => .inr (.waitDone, true)
  | .readActivity => .inl { serverAliveCounter := counter, hadTimeout := false }
  | .tick o =>
    match sendKeepAliveRequest o c.serverAliveTimeout c.serverAliveLagMax with
    | none => .inl { serverAliveCounter := counter, hadTimeout := false }
    | some .eof => .inr (.eof, true)
    | some .kaTimeout =>
      if counter > 0 then .inl { serverAliveCounter := counter, hadTimeout := true }
      else .inr (.dead true, true)
    | some (.other _) => .inr (.dead false, true)

/-- Run `keepAliveLoop` over a list of iteration events; `.inl st` means the
loop is still running with locals `st` after consuming the list. -/
def loopRun (c : KeepAliveConfig) (st : LoopState) :
    List LoopEvent → LoopState ⊕ (LoopExit × Bool)
  | [] => .inl st
  | ev :: evs =>
    match loopStep c st ev with
    | .inl st2 => loopRun c st2 evs
    | .inr ex => .inr ex

/-- `true` while the loop has not returned. -/
def stillRunning (r : LoopState ⊕ (LoopExit × Bool)) : Bool :=
  match r with
  | .inl _ => true
  | .inr _ => false

/-- A counted miss: a tick whose probe timed out with measured elapsed time
`took` strictly below `timeout + lag`. -/
def missTick (took : Int) : LoopEvent :=
  .tick (.timeoutFired took)

def c5Config : KeepAliveConfig :=
  { serverAliveCountMax := 1, serverAliveInterval := 10000000,
    serverAliveTimeout := 10000000, serverAliveLagMax := 2000000000 }

/-- The event trace of the C5 scenario, in which every probe is acknowledged
exactly 5ms after its timeout fires. Each probe tick times out (elapsed
around `timeout + 5ms`, far below `timeout + lag`, so the timeout is counted)
but its acknowledgement arrives 5ms later, while the next probe cannot yet be
issued (the single-flight sender goroutine is still blocked delivering the
late result); the following tick therefore resolves through the `resp`
channel (a nil error, consumed either by the leading drain, the `resp` arm or
the `successfulRead` arm) and counts as a success. The run is thus an
alternation of one counted miss and one success. -/
def c5Events : Nat → List LoopEvent
  | 0 => []
  | n + 1 => missTick 15000000 :: LoopEvent.tick (.resp none) :: c5Events n

/-! ## The session pool (`sshClientPool`, `src/unnamed/part_008`)

The pool's state is protected by one mutex, and every operation holds it for
the whole of its in-memory bookkeeping, so the operations linearize; the
embedding makes each pool operation one atomic step on an explicit state.
Transport clients are identified by a `Nat` id; `Close()` invocations are
logged in `closed` so that close-counting is observable. `sshPooledTunnel`
values carry a `Nat` pointer identity (`hid`), allocated from `nextHandle`,
because `tryRelease` compares handles by pointer identity (`e.val != value`).
The constructor outcome is a parameter of `acquire` (`some cid`: the factory
returned client `cid`; `none`: the factory failed). In the sequential
embedding an entry is published in the map only once its construction has
finished (the `done` channel of an in-flight entry is awaited inside the same
atomic step), and removal (`removed = true` plus `delete`) is atomic, so a
`wait` that observes `removed` retries and finds no entry: that retry is
embedded as constructing anew. -/

/-- `clientKey` of `part_008`: username, password fingerprint, `host:port`
address and the resolved keep-alive configuration. -/
structure ClientKey where
  username : String
  password : String
  addr : String
  keepAlive : KeepAliveConfig
deriving DecidableEq, Repr

/-- `sshPooledTunnel`: a pooled handle with pointer identity `hid`, its
transport client id and its pool key. -/
structure Handle where
  hid : Nat
  client : Nat
  key : ClientKey
deriving DecidableEq, Repr

/-- `clientPoolEntry` as observable once construction completed: the handle
stored in `val`, the reference count, and the removed flag. -/
structure PoolEntry where
  val : Handle
  refCount : Int
  removed : Bool
deriving DecidableEq, Repr

/-- The pool map `m map[clientKey]*clientPoolEntry` as an association list,
plus the handle-identity allocator and the log of `client.Close()` calls. -/
structure PoolState where
  m : List (ClientKey × PoolEntry)
  nextHandle : Nat
  closed : List Nat
deriving DecidableEq, Repr

/-- Go map lookup on the association list (first match; reachable pool
states never hold duplicate keys). -/
def mapLookup {α β : Type} [DecidableEq α] : List (α × β) → α → Option β
  | [], _ => none
  | kv :: t, k => if kv.1 = k then some kv.2 else mapLookup t k

/-- Go map `delete`. -/
def mapErase {α β : Type} [DecidableEq α] (m : List (α × β)) (k : α) :
    List (α × β) :=
  m.filter fun kv => kv.1 ≠ k

/-- Go map store of `v` under an existing key `k`. -/
def mapUpdate {α β : Type} [DecidableEq α] (m : List (α × β)) (k : α) (v : β) :
    List (α × β) :=
  m.map fun kv => if kv.1 = k then (k, v) else kv

/-- The constructor path of `acquire`: publish a fresh entry, run the
constructor, record success (value, `refCount = 1`) or failure (entry marked
removed and deleted, net effect nothing). -/
def PoolState.acquireNew (s : PoolState) (key : ClientKey) (ctor : Option Nat) :
    Option Handle × PoolState :=
  match ctor with
  | some cid =>
    let h : Handle := { hid := s.nextHandle, client := cid, key := key }
    (some h,
      { s with
        m := (key, { val := h, refCount := 1, removed := false }) :: s.m
        nextHandle := s.nextHandle + 1 })
  | none => (none, s)

/-- `sshClientPool.acquire`: a present entry is awaited (`wait`), bumping its
reference count; an entry observed removed retries, which in the sequential
embedding means constructing anew; an absent entry makes this caller the
constructor. -/
def PoolState.acquire (s : PoolState) (key : ClientKey) (ctor : Option Nat) :
    Option Handle × PoolState :=
  match mapLookup s.m key with
  | some e =>
    if e.removed then s.acquireNew key ctor
    else
      (some e.val,
        { s with m := mapUpdate s.m key { e with refCount := e.refCount + 1 } })
  | none => s.acquireNew key ctor

/-- `sshClientPool.tryRelease`: the entry slot is acted on only if its
current value is identical to the handle being released (`e.val != value`
returns `true` without touching the map); otherwise the count is
decremented, and unless this was a non-forced release leaving users the
entry is marked removed and deleted. -/
def PoolState.tryRelease (s : PoolState) (value : Handle) (force : Bool) :
    Bool × PoolState :=
  match mapLookup s.m value.key with
  | none => (true, s)
  | some e =>
    if e.val ≠ value then (true, s)
    else
      let rc := e.refCount - 1
      if ¬force ∧ rc > 0 then
        (false, { s with m := mapUpdate s.m value.key { e with refCount := rc } })
      else (true, { s with m := mapErase s.m value.key })

/-- `sshClientPool.release`: `tryRelease` without force; when it reports the
last user, `value.client.Close()` is invoked. -/
def PoolState.release (s : PoolState) (value : Handle) : PoolState :=
  let r := s.tryRelease value false
  if r.1 then { r.2 with closed := r.2.closed ++ [value.client] } else r.2

/-- `sshClientPool.forget`: forced `tryRelease`, then `value.client.Close()`
unconditionally. -/
def PoolState.forget (s : PoolState) (value : Handle) : PoolState :=
  let r := s.tryRelease value true
  { r.2 with closed := r.2.closed ++ [value.client] }

/-- The empty pool (`newClientPool`). -/
def PoolState.initial : PoolState :=
  { m := [], nextHandle := 0, closed := [] }

/-- Number of `Close()` invocations the pool has performed on client `cid`. -/
def closeCount (s : PoolState) (cid : Nat) : Nat :=
  s.closed.count cid

/-- A pool operation, for quantifying over arbitrary operation sequences. -/
inductive PoolOp where
  | acquireOp (key : ClientKey) (ctor : Option Nat)
  | releaseOp (h : Handle)
  | forgetOp (h : Handle)

/-- Run a sequence of pool operations, collecting the handles the `acquire`
operations hand out. -/
def runPool : PoolState → List PoolOp → PoolState × List Handle
  | s, [] => (s, [])
  | s, .acquireOp key ctor :: ops =>
    let r := s.acquire key ctor
    let rest := runPool r.2 ops
    (rest.1, r.1.toList ++ rest.2)
  | s, .releaseOp h :: ops => runPool (s.release h) ops
  | s, .forgetOp h :: ops => runPool (s.forget h) ops

/-- Handle `h` is stale: no entry of the pool map holds it as its current
value. -/
def Stale (s : PoolState) (h : Handle) : Prop :=
  ∀ kv ∈ s.m, kv.2.val ≠ h

/-- Invariant of reachable pool states: every entry is stored under the key
its handle carries, holds an allocated handle identity, is not marked
removed (removal and deletion from the map happen atomically under the
lock), and keys are unique (it is a Go map). -/
def PoolInv (s : PoolState) : Prop :=
  (∀ kv ∈ s.m, kv.2.val.key = kv.1 ∧ kv.2.val.hid < s.nextHandle ∧
    kv.2.removed = false) ∧
  (s.m.map Prod.fst).Nodup

/-- Modelled from the spec: the keep-alive attach point
(`sshPooledTunnel.keepAlive`, the method `DialContext` invokes after a
successful sub-dial, whose body is not among the sources; only the
`keepAliveOnce` latch field and the call site are). Spec §4.2: "On death,
the engine closes the Transport Client and forces eviction from the Session
Pool (equivalent to `forget`)" — so when `keepAliveLoop` exits by declaring
the session dead, the engine performs the pool's `forget` on the handle the
loop was attached to. -/
def keepAliveOnDeath (s : PoolState) (h : Handle) : PoolState :=
  s.forget h

/-! ## The dial orchestrator (`DialContext`, `src/unnamed/part_006`) -/

/-- The Go `error` values `DialContext` distinguishes: the three validation
errors, `errors.Join` of a list, the `mytunnel/dial: %w` wrapper, and opaque
underlying errors (tagged by a number). -/
inductive GoErr where
  | userRequired
  | hostRequired
  | addrRequired
  | join (es : List GoErr)
  | wrap (e : GoErr)
  | tag (n : Nat)

/-- Go `errors.Join` over already-non-nil errors: nil for an empty list,
otherwise a join error holding the list. -/
def errorsJoin (es : List GoErr) : Option GoErr :=
  match es with
  | [] => none
  | es => some (.join es)

/-- `wrapErr` of `part_006`: nil stays nil, anything else is wrapped with
the `mytunnel/dial:` prefix. -/
def wrapErr : Option GoErr → Option GoErr
  | none => none
  | some e => some (.wrap e)

/-- `Config` of `config.go` (capitalized Go field names lowercased): the
parsed target descriptor. -/
structure Config where
  username : String
  password : Option String
  host : String
  port : Int
  net : String
  addr : String
  params : List (String × List String)
deriving DecidableEq, Repr

/-- The non-nil errors `Config.canDial` accumulates, in order. -/
def Config.canDialErrs (c : Config) : List GoErr :=
  (if c.username = "" then [GoErr.userRequired] else []) ++
    (if c.host = "" then [GoErr.hostRequired] else []) ++
    (if c.net = "" ∨ c.addr = "" then [GoErr.addrRequired] else [])

/-- `Config.canDial` of `part_006`: `errors.Join` of one error per missing
required field. -/
def Config.canDial (c : Config) : Option GoErr :=
  errorsJoin c.canDialErrs

/-- The outcome of one iteration of the dial loop of `DialContext`:
`getSshTunnel` failed, or the tunnel's sub-dial `client.DialContext` failed
(with `errors.Is(err, ctx.Err())` true or false), or it succeeded. -/
inductive AttemptResult where
  | acquireFail (e : GoErr)
  | dialFail (e : GoErr) (isCtxErr : Bool)
  | dialOk

/-- An observable action of `DialContext`, indexed by the attempt that
performed it: the pool handed out a tunnel, the tunnel was released or
forgotten, or the keep-alive engine was attached. -/
inductive DialEvent where
  | acquired (i : Nat)
  | released (i : Nat)
  | forgot (i : Nat)
  | keepAliveStarted (i : Nat)
deriving DecidableEq, Repr

/-- What `DialContext` returns: a connection wrapping the sub-connection of
attempt `i`, or an error (`none` cannot occur on failing paths but mirrors
the Go `error` type). -/
inductive DialOutcome where
  | conn (i : Nat)
  | fail (e : Option GoErr)

/-- `const dialAttempts = 2` of `part_006`. -/
def dialAttempts : Nat := 2

/-- The `for range dialAttempts` loop of `DialContext`: `rem` attempts
remain, `i` is the current attempt index, `lastErr` the last sub-dial
error. On acquire failure the wrapped error is returned at once; on a
sub-dial failure that `errors.Is` the context's error the tunnel is released
and the error returned unwrapped; on any other sub-dial failure the tunnel
is forgotten and the loop retries; on success keep-alive is attached and the
connection returned. When attempts are exhausted, `wrapErr(lastErr)`. -/
def dialLoop (env : Nat → AttemptResult) :
    Nat → Nat → Option GoErr → DialOutcome × List DialEvent
  | 0, _, lastErr => (.fail (wrapErr lastErr), [])
  | rem + 1, i, _ =>
    match env i with
    | .acquireFail e => (.fail (some (.wrap e)), [])
    | .dialFail e isCtx =>
      if isCtx then (.fail (some e), [.acquired i, .released i])
      else
        let r := dialLoop env rem (i + 1) (some e)
        (r.1, .acquired i :: .forgot i :: r.2)
    | .dialOk => (.conn i, [.acquired i, .keepAliveStarted i])

/-- `DialContext` of `part_006` from the parsed descriptor on: validation
(`canDial`) gates the dial loop; a validation failure returns the wrapped
join immediately, with no pool operation and no retry. (`ParseAddr`
precedes this in Go and is not part of the claims modelled here.) -/
def DialContext (c : Config) (env : Nat → AttemptResult) :
    DialOutcome × List DialEvent :=
  match c.canDial with
  | some e => (.fail (some (.wrap e)), [])
  | none => dialLoop env dialAttempts 0 none

/-! ## The connection wrapper (`tunnelConn`, `src/unnamed/part_006`) -/

/-- The mutable state of a `tunnelConn`: whether `closeOnce` has fired and
the recorded `closeErr`. -/
structure TunnelConnState where
  closeOnceDone : Bool
  closeErr : Option GoErr

/-- Go `errors.Join(err1, err2)`: nil when both are nil, otherwise a join
error of the non-nil ones. -/
def errorsJoin2 (a b : Option GoErr) : Option GoErr :=
  match a, b with
  | none, none => none
  | some e, none => some (.join [e])
  | none, some e => some (.join [e])
  | some e1, some e2 => some (.join [e1, e2])

/-- `tunnelConn.Close`: always closes the sub-connection (`err1`), runs the
handle release only under `closeOnce` (recording its error in `closeErr`),
and returns `errors.Join(err1, t.closeErr)`. `connCloseErr` is what this
call's `t.Conn.Close()` returns and `releaseErr` what `t.tunnel.release()`
would return; the `Bool` records whether the release was invoked by this
call. -/
def tunnelConnClose (connCloseErr releaseErr : Option GoErr)
    (st : TunnelConnState) : Option GoErr × TunnelConnState × Bool :=
  if st.closeOnceDone then
    (errorsJoin2 connCloseErr st.closeErr, st, false)
  else
    (errorsJoin2 connCloseErr releaseErr,
      { closeOnceDone := true, closeErr := releaseErr }, true)

/-- A sequence of `Close` calls on one `tunnelConn`; each list element is
the sub-connection close error of that call. Returns the per-call (returned
error, release-invoked) pairs and the final state. -/
def runCloses (releaseErr : Option GoErr) (st : TunnelConnState) :
    List (Option GoErr) → List (Option GoErr × Bool) × TunnelConnState
  | [] => ([], st)
  | e :: es =>
    let r := tunnelConnClose e releaseErr st
    let rest := runCloses releaseErr r.2.1 es
    ((r.1, r.2.2) :: rest.1, rest.2)

/-! ## The pool key (`Config.clientKey` / `passKey`, `src/unnamed/part_008`) -/

/-- `DefaultPort = 22`. -/
def DefaultPort : Int := 22

/-- `Config.sshAddr`: `host:port` with the default port applied when the
port is unset. -/
def Config.sshAddr (c : Config) : String :=
  let port := if c.port = 0 then DefaultPort else c.port
  c.host ++ ":" ++ toString port

/-- `passKey` of `part_008`: `-` for an absent password, `*` for a
present-but-empty one, and `-*` followed by the hex md5 digest otherwise.
The md5 digest (`crypto/md5` with `hex.EncodeToString`, an external
library) is a parameter of the model. -/
def passKey (md5hex : String → String) (password : Option String) : String :=
  match password with
  | none => "-"
  | some p => if p = "" then "*" else "-*" ++ md5hex p

/-- `Config.clientKey` of `part_008`: the pool key is the username, the
password fingerprint, the `host:port` address and the resolved keep-alive
configuration — and nothing else. -/
def Config.clientKey (md5hex : String → String) (c : Config)
    (config : KeepAliveConfig) : ClientKey :=
  { username := c.username, password := passKey md5hex c.password,
    addr := c.sshAddr, keepAlive := config }

/-- Concrete pool key for the C1 scenario. -/
def c1Key : ClientKey :=
  { username := "alice", password := "-", addr := "host:22", keepAlive := {} }

/-- The handle the C1 scenario's first `acquire` hands out. -/
def c1Handle : Handle :=
  { hid := 0, client := 0, key := c1Key }

/-- Pool after one successful `acquire` of `c1Key` (client id 0). -/
def c1Pool : PoolState :=
  (PoolState.initial.acquire c1Key (some 0)).2

/-- A keep-alive configuration that declares death on the first counted
miss (`ServerAliveCountMax = 0`), for the C4 witness. -/
def c4Config : KeepAliveConfig :=
  { serverAliveCountMax := 0, serverAliveInterval := 1,
    serverAliveTimeout := 1, serverAliveLagMax := 1 }

/-- Concrete pool key for the C4 witness. -/
def c4Key : ClientKey :=
  { username := "bob", password := "*", addr := "host:22", keepAlive := c4Config }

/-- The handle the C4 witness scenario's `acquire` hands out (client 5). -/
def c4Handle : Handle :=
  { hid := 0, client := 5, key := c4Key }

/-- Pool after one successful `acquire` of `c4Key` (client id 5). -/
def c4Pool : PoolState :=
  (PoolState.initial.acquire c4Key (some 5)).2

/-- A valid descriptor (all required fields present) for the C2 witness. -/
def c2Config : Config :=
  { username := "u", password := none, host := "h", port := 0,
    net := "unix", addr := "/s", params := [] }

/-- Attempt outcomes for the C2 witness: both sub-dials fail without
cancellation. -/
def c2Env : Nat → AttemptResult :=
  fun i => if i = 0 then .dialFail (.tag 0) false else .dialFail (.tag 1) false

/-- A descriptor missing its principal, for the C9 witness. -/
def c9Config : Config :=
  { username := "", password := none, host := "h", port := 0,
    net := "unix", addr := "/s", params := [] }

/-- First descriptor of the C8 witness. -/
def c8ConfigA : Config :=
  { username := "u", password := some "pw", host := "h", port := 0,
    net := "unix", addr := "/a", params := [] }

/-- Second descriptor of the C8 witness: same identity, different
sub-address. -/
def c8ConfigB : Config :=
  { username := "u", password := some "pw", host := "h", port := 0,
    net := "tcp", addr := "1.2.3.4:5", params := [("x", ["y"])] }

/-! ## Theorems -/

theorem kaParse_of_invalid {vals : List String} (h : kaInvalidVals vals = true)
    (u : Int) : kaParse vals u = -1 := by
  match vals with
  | [] => rfl
  | [v] =>
    unfold kaParse
    unfold kaInvalidVals at h
    cases hp : goParseUint64 v with
    | none => simp [hp]
    | some res => simp_all
  | _ :: _ :: _ => rfl

theorem foldl_kaStep_interval_nonpos (t : List (String × List String))
    (r : KeepAliveConfig) (hr : r.serverAliveInterval ≤ 0)
    (h : ∀ kv ∈ t, eqFold kv.1 "ServerAliveInterval" = true →
      kaParse kv.2 timeSecond ≤ 0) :
    (t.foldl kaStep r).serverAliveInterval ≤ 0 := by
  induction t generalizing r with
  | nil => exact hr
  | cons kv tl ih =>
    have hkv := h kv (List.mem_cons_self kv tl)
    refine ih (kaStep r kv) ?_ (fun x hx he => h x (List.mem_cons_of_mem _ hx) he)
    unfold kaStep
    split_ifs with h1 h2 h3 h4
    · exact hkv h1
    · exact hr
    · exact hr
    · exact hr
    · exact hr

theorem foldl_kaStep_countMax_neg_one (t : List (String × List String))
    (r : KeepAliveConfig) (hr : r.serverAliveCountMax = -1)
    (h : ∀ kv ∈ t, eqFold kv.1 "ServerAliveCountMax" = true →
      kaInvalidVals kv.2 = true) :
    (t.foldl kaStep r).serverAliveCountMax = -1 := by
  induction t generalizing r with
  | nil => exact hr
  | cons kv tl ih =>
    have hkv := h kv (List.mem_cons_self kv tl)
    refine ih (kaStep r kv) ?_ (fun x hx he => h x (List.mem_cons_of_mem _ hx) he)
    unfold kaStep
    split_ifs with h1 h2 h3 h4
    · exact hr
    · exact kaParse_of_invalid (hkv h2) 1
    · exact hr
    · exact hr
    · exact hr

theorem foldl_kaStep_timeout_neg_one (t : List (String × List String))
    (r : KeepAliveConfig) (hr : r.serverAliveTimeout = -1)
    (h : ∀ kv ∈ t, eqFold kv.1 "ServerAliveTimeout" = true →
      kaInvalidVals kv.2 = true) :
    (t.foldl kaStep r).serverAliveTimeout = -1 := by
  induction t generalizing r with
  | nil => exact hr
  | cons kv tl ih =>
    have hkv := h kv (List.mem_cons_self kv tl)
    refine ih (kaStep r kv) ?_ (fun x hx he => h x (List.mem_cons_of_mem _ hx) he)
    unfold kaStep
    split_ifs with h1 h2 h3 h4
    · exact hr
    · exact hr
    · exact kaParse_of_invalid (hkv h3) timeSecond
    · exact hr
    · exact hr

theorem foldl_kaStep_lagMax_neg_one (t : List (String × List String))
    (r : KeepAliveConfig) (hr : r.serverAliveLagMax = -1)
    (h : ∀ kv ∈ t, eqFold kv.1 "ServerAliveLagMax" = true →
      kaInvalidVals kv.2 = true) :
    (t.foldl kaStep r).serverAliveLagMax = -1 := by
  induction t generalizing r with
  | nil => exact hr
  | cons kv tl ih =>
    have hkv := h kv (List.mem_cons_self kv tl)
    refine ih (kaStep r kv) ?_ (fun x hx he => h x (List.mem_cons_of_mem _ hx) he)
    unfold kaStep
    split_ifs with h1 h2 h3 h4
    · exact hr
    · exact hr
    · exact hr
    · exact kaParse_of_invalid (hkv h4) timeSecond
    · exact hr

/-- Unfolded form of `makeKeepAliveConfig` as a single conditional. -/
theorem makeKeepAliveConfig_spec (values : List (String × List String)) :
    makeKeepAliveConfig values =
      (let res := values.foldl kaStep ⟨-1, -1, -1, -1⟩
      if res.serverAliveInterval ≤ 0 then {}
      else
        { serverAliveCountMax :=
            if res.serverAliveCountMax < 0 then defaultServerAliveCountMax
            else res.serverAliveCountMax
          serverAliveInterval := res.serverAliveInterval
          serverAliveTimeout :=
            if res.serverAliveTimeout ≤ 0 then res.serverAliveInterval
            else res.serverAliveTimeout
          serverAliveLagMax :=
            if res.serverAliveLagMax < 0 then defaultServerAliveLagMax
            else res.serverAliveLagMax }) := by
  unfold makeKeepAliveConfig KeepAliveConfig.keepAlive
  simp only []
  generalize values.foldl kaStep ⟨-1, -1, -1, -1⟩ = res
  by_cases h : res.serverAliveInterval ≤ 0
  · rw [if_pos h, if_pos (by simp; omega)]
  · rw [if_neg h, if_neg (by simp; omega)]
    split_ifs <;> rfl

/-- C10: if `ServerAliveInterval` is absent, repeated, unparsable, above
`MaxInt` or zero, `makeKeepAliveConfig` yields the zero configuration and
`keepAlive` starts no loop; and an invalid or repeated value for any other
keep-alive parameter falls back to that parameter's default
(`ServerAliveCountMax` to 3, `ServerAliveTimeout` to the interval,
`ServerAliveLagMax` to 2s), exactly as if the parameter were unset. -/
theorem C10_invalid_keep_alive_params_fall_back (values : List (String × List String)) :
    ((∀ kv ∈ values, eqFold kv.1 "ServerAliveInterval" = true →
        kaParse kv.2 timeSecond ≤ 0) →
      makeKeepAliveConfig values = {} ∧
        keepAliveStartsLoop (makeKeepAliveConfig values) = false) ∧
    ((∀ kv ∈ values, eqFold kv.1 "ServerAliveCountMax" = true →
        kaInvalidVals kv.2 = true) →
      (makeKeepAliveConfig values).serverAliveCountMax =
        if keepAliveStartsLoop (makeKeepAliveConfig values) = true then
          defaultServerAliveCountMax
        else 0) ∧
    ((∀ kv ∈ values, eqFold kv.1 "ServerAliveTimeout" = true →
        kaInvalidVals kv.2 = true) →
      (makeKeepAliveConfig values).serverAliveTimeout =
        if keepAliveStartsLoop (makeKeepAliveConfig values) = true then
          (makeKeepAliveConfig values).serverAliveInterval
        else 0) ∧
    ((∀ kv ∈ values, eqFold kv.1 "ServerAliveLagMax" = true →
        kaInvalidVals kv.2 = true) →
      (makeKeepAliveConfig values).serverAliveLagMax =
        if keepAliveStartsLoop (makeKeepAliveConfig values) = true then
          defaultServerAliveLagMax
        else 0) ∧
    (∀ u : Int, kaParse [] u = -1 ∧ kaParse ["0"] u = 0) ∧
    (∀ (v1 v2 : String) (t : List String) (u : Int), kaParse (v1 :: v2 :: t) u = -1) ∧
    (∀ (v : String) (u : Int), goParseUint64 v = none → kaParse [v] u = -1) := by
  rw [makeKeepAliveConfig_spec]
  simp only []
  refine ⟨?_, ?_, ?_, ?_, ?_, ?_, ?_⟩
  · intro h
    have hI := foldl_kaStep_interval_nonpos values ⟨-1, -1, -1, -1⟩ (by norm_num) h
    rw [if_pos hI]
    exact ⟨rfl, rfl⟩
  · intro h
    have hC := foldl_kaStep_countMax_neg_one values ⟨-1, -1, -1, -1⟩ rfl h
    by_cases hI : (values.foldl kaStep ⟨-1, -1, -1, -1⟩).serverAliveInterval ≤ 0
    · rw [if_pos hI]; rfl
    · rw [if_neg hI]
      simp [keepAliveStartsLoop, KeepAliveConfig.keepAlive, hC]
      omega
  · intro h
    have hT := foldl_kaStep_timeout_neg_one values ⟨-1, -1, -1, -1⟩ rfl h
    by_cases hI : (values.foldl kaStep ⟨-1, -1, -1, -1⟩).serverAliveInterval ≤ 0
    · rw [if_pos hI]; rfl
    · rw [if_neg hI]
      simp [keepAliveStartsLoop, KeepAliveConfig.keepAlive, hT]
      omega
  · intro h
    have hL := foldl_kaStep_lagMax_neg_one values ⟨-1, -1, -1, -1⟩ rfl h
    by_cases hI : (values.foldl kaStep ⟨-1, -1, -1, -1⟩).serverAliveInterval ≤ 0
    · rw [if_pos hI]; rfl
    · rw [if_neg hI]
      simp [keepAliveStartsLoop, KeepAliveConfig.keepAlive, hL]
      omega
  · intro u
    refine ⟨rfl, ?_⟩
    have h0 : kaParse ["0"] u = wrap64 (((0 : Nat) : Int) * u) := rfl
    rw [h0]
    norm_num [wrap64]
  · intro v1 v2 t u
    rfl
  · intro v u h
    have h0 : kaParse [v] u =
        (match goParseUint64 v with
          | none => -1
          | some res =>
            if (res : Int) > 2 ^ 63 - 1 then -1 else wrap64 ((res : Int) * u)) := rfl
    rw [h0, h]

/-- Witness for C10 at a concrete parameter map: an unparsable
`ServerAliveInterval` yields the zero configuration and no loop. -/
theorem C10_invalid_keep_alive_params_fall_back_witness :
    makeKeepAliveConfig [("ServerAliveInterval", ["oops"])] = {} ∧
      keepAliveStartsLoop (makeKeepAliveConfig [("ServerAliveInterval", ["oops"])]) = false :=
  (C10_invalid_keep_alive_params_fall_back [("ServerAliveInterval", ["oops"])]).1
    (by decide)

/-! ## The keep-alive loop (`keepAliveLoop` / `sendKeepAliveRequest`)

The loop is a single goroutine multiplexing over channels; it is embedded as
a step function over a list of events, one event per `for` iteration, each
event recording which `select` arm fired and with which value. -/

/-- The error value returned by `client.SendRequest` (and forwarded on the
`resp` channel), as the loop distinguishes it: `io.EOF`, the sentinel
`errKeepAliveTimeout` (compared by identity), or any other error. -/
theorem loopStep_missTick_hadTimeout (c : KeepAliveConfig) (m took : Int)
    (h : took < c.serverAliveTimeout + c.serverAliveLagMax) :
    loopStep c { serverAliveCounter := m, hadTimeout := true } (missTick took) =
      if m - 1 > 0 then
        .inl { serverAliveCounter := m - 1, hadTimeout := true }
      else .inr (.dead true, true) := by
  have hlt : ¬ took ≥ c.serverAliveTimeout + c.serverAliveLagMax := by omega
  simp [loopStep, missTick, sendKeepAliveRequest, hlt]

theorem loopStep_missTick_fresh (c : KeepAliveConfig) (m took : Int)
    (h : took < c.serverAliveTimeout + c.serverAliveLagMax) :
    loopStep c { serverAliveCounter := m, hadTimeout := false } (missTick took) =
      if c.serverAliveCountMax > 0 then
        .inl { serverAliveCounter := c.serverAliveCountMax, hadTimeout := true }
      else .inr (.dead true, true) := by
  have hlt : ¬ took ≥ c.serverAliveTimeout + c.serverAliveLagMax := by omega
  simp [loopStep, missTick, sendKeepAliveRequest, hlt]

theorem loopRun_misses_alive (c : KeepAliveConfig) (took : Int)
    (h : took < c.serverAliveTimeout + c.serverAliveLagMax) :
    ∀ (j : Nat) (m : Int), (j : Int) < m →
      loopRun c { serverAliveCounter := m, hadTimeout := true }
        (List.replicate j (missTick took)) =
      .inl { serverAliveCounter := m - j, hadTimeout := true } := by
  intro j
  induction j with
  | zero => intro m _; simp [loopRun, List.replicate]
  | succ j ih =>
    intro m hm
    push_cast at hm
    rw [List.replicate_succ]
    unfold loopRun
    rw [loopStep_missTick_hadTimeout c m took h, if_pos (by omega)]
    show loopRun c { serverAliveCounter := m - 1, hadTimeout := true }
      (List.replicate j (missTick took)) = _
    rw [ih (m - 1) (by omega)]
    simp only [Sum.inl.injEq, LoopState.mk.injEq]
    refine ⟨by push_cast; ring, trivial⟩

theorem loopRun_cons (c : KeepAliveConfig) (st : LoopState) (ev : LoopEvent)
    (evs : List LoopEvent) :
    loopRun c st (ev :: evs) =
      match loopStep c st ev with
      | .inl st2 => loopRun c st2 evs
      | .inr ex => .inr ex := rfl

theorem loopRun_append (c : KeepAliveConfig) (st : LoopState)
    (l1 l2 : List LoopEvent) :
    loopRun c st (l1 ++ l2) =
      match loopRun c st l1 with
      | .inl st2 => loopRun c st2 l2
      | .inr ex => .inr ex := by
  induction l1 generalizing st with
  | nil => rfl
  | cons ev evs ih =>
    rw [List.cons_append, loopRun_cons, loopRun_cons]
    cases loopStep c st ev with
    | inl st2 => exact ih st2
    | inr ex => rfl

theorem loopRun_misses_dead (c : KeepAliveConfig) (took : Int)
    (h : took < c.serverAliveTimeout + c.serverAliveLagMax) :
    ∀ (j : Nat) (m : Int), 1 ≤ j → m ≤ (j : Int) →
      loopRun c { serverAliveCounter := m, hadTimeout := true }
        (List.replicate j (missTick took)) =
      .inr (.dead true, true) := by
  intro j
  induction j with
  | zero => intro m h1 _; omega
  | succ j ih =>
    intro m _ hm
    push_cast at hm
    rw [List.replicate_succ]
    unfold loopRun
    rw [loopStep_missTick_hadTimeout c m took h]
    by_cases hc : m - 1 > 0
    · rw [if_pos hc]
      exact ih (m - 1) (by omega) (by omega)
    · rw [if_neg hc]

/-- C3 (counterexample): with `ServerAliveCountMax = 1` and a probe that
times out with elapsed time below `timeout + lag`, after the number of
consecutive counted misses reaches the configured maximum (one miss) the
loop is still running: the session has not been declared dead and the client
has not been closed, contrary to the claim. -/
theorem C3_counterexample_miss_reaching_max_not_dead :
    stillRunning
      (loopRun
        { serverAliveCountMax := 1, serverAliveInterval := 10000000,
          serverAliveTimeout := 10000000, serverAliveLagMax := 2000000000 }
        (loopInit
          { serverAliveCountMax := 1, serverAliveInterval := 10000000,
            serverAliveTimeout := 10000000, serverAliveLagMax := 2000000000 })
        (List.replicate 1 (missTick 15000000))) = true := by
  decide

/-- C3 (amended): with configured maximum `N = serverAliveCountMax ≥ 0`, the
session is declared dead (and the client closed) exactly when the number of
consecutive counted misses reaches `N + 1`; after `N` or fewer consecutive
misses the loop is still running. -/
theorem C3_death_at_missCountMax_plus_one (c : KeepAliveConfig) (took : Int)
    (h : took < c.serverAliveTimeout + c.serverAliveLagMax)
    (hN : 0 ≤ c.serverAliveCountMax) :
    loopRun c (loopInit c)
        (List.replicate (c.serverAliveCountMax.toNat + 1) (missTick took)) =
      .inr (.dead true, true) ∧
    ∀ j ≤ c.serverAliveCountMax.toNat,
      stillRunning (loopRun c (loopInit c) (List.replicate j (missTick took))) =
        true := by
  constructor
  · rw [List.replicate_succ, loopRun_cons]
    unfold loopInit
    rw [loopStep_missTick_fresh c _ took h]
    by_cases hN0 : c.serverAliveCountMax > 0
    · rw [if_pos hN0]
      show loopRun c
        { serverAliveCounter := c.serverAliveCountMax, hadTimeout := true }
        (List.replicate c.serverAliveCountMax.toNat (missTick took)) = _
      exact loopRun_misses_dead c took h c.serverAliveCountMax.toNat
        c.serverAliveCountMax (by omega) (by omega)
    · rw [if_neg hN0]
  · intro j hj
    cases j with
    | zero => rfl
    | succ j =>
      have hN0 : c.serverAliveCountMax > 0 := by omega
      rw [List.replicate_succ, loopRun_cons]
      unfold loopInit
      rw [loopStep_missTick_fresh c _ took h, if_pos hN0]
      show stillRunning (loopRun c
        { serverAliveCounter := c.serverAliveCountMax, hadTimeout := true }
        (List.replicate j (missTick took))) = true
      rw [loopRun_misses_alive c took h j c.serverAliveCountMax (by omega)]
      rfl

/-- Witness for the amended C3 at `serverAliveCountMax = 1`: the second
consecutive counted miss declares the session dead and closes the client. -/
theorem C3_death_at_missCountMax_plus_one_witness :
    loopRun
        { serverAliveCountMax := 1, serverAliveInterval := 10000000,
          serverAliveTimeout := 10000000, serverAliveLagMax := 2000000000 }
        (loopInit
          { serverAliveCountMax := 1, serverAliveInterval := 10000000,
            serverAliveTimeout := 10000000, serverAliveLagMax := 2000000000 })
        (List.replicate 2 (missTick 15000000)) =
      .inr (.dead true, true) :=
  (C3_death_at_missCountMax_plus_one
    { serverAliveCountMax := 1, serverAliveInterval := 10000000,
      serverAliveTimeout := 10000000, serverAliveLagMax := 2000000000 }
    15000000 (by norm_num) (by norm_num)).1

/-- C6: a probe timeout whose measured elapsed time is at least
`timeout + lag` is discarded: `sendKeepAliveRequest` returns nil, the loop
iteration is indistinguishable from an acknowledged probe, the tick is not
recorded as a timeout (`hadTimeout` stays `false`, so the consecutive-miss
count is not advanced) and the loop keeps running. -/
theorem C6_lagged_timeout_discarded (c : KeepAliveConfig) (st : LoopState)
    (took : Int) (h : took ≥ c.serverAliveTimeout + c.serverAliveLagMax) :
    sendKeepAliveRequest (.timeoutFired took) c.serverAliveTimeout
        c.serverAliveLagMax = none ∧
    loopStep c st (.tick (.timeoutFired took)) = loopStep c st (.tick (.resp none)) ∧
    loopStep c st (.tick (.timeoutFired took)) =
      .inl { serverAliveCounter := (if st.hadTimeout then st.serverAliveCounter - 1
               else c.serverAliveCountMax),
             hadTimeout := false } := by
  refine ⟨?_, ?_, ?_⟩
  · simp [sendKeepAliveRequest, h]
  · simp [loopStep, sendKeepAliveRequest, h]
  · simp [loopStep, sendKeepAliveRequest, h]

/-- The configuration of the C5 scenario: interval 10ms, timeout 10ms, lag
2s, `ServerAliveCountMax = 1` (all durations in nanoseconds). -/
theorem c5_run (n : Nat) : ∀ m : Int,
    loopRun c5Config { serverAliveCounter := m, hadTimeout := false }
        (c5Events n) =
      .inl { serverAliveCounter := (if n = 0 then m else 0), hadTimeout := false } := by
  induction n with
  | zero => intro m; rfl
  | succ n ih =>
    intro m
    show loopRun c5Config { serverAliveCounter := m, hadTimeout := false }
      (missTick 15000000 :: LoopEvent.tick (.resp none) :: c5Events n) = _
    rw [loopRun_cons, loopStep_missTick_fresh c5Config m 15000000 (by norm_num [c5Config]),
      if_pos (by norm_num [c5Config])]
    show loopRun c5Config
      { serverAliveCounter := c5Config.serverAliveCountMax, hadTimeout := true }
      (LoopEvent.tick (.resp none) :: c5Events n) = _
    rw [loopRun_cons]
    have h2 : loopStep c5Config
        { serverAliveCounter := c5Config.serverAliveCountMax, hadTimeout := true }
        (LoopEvent.tick (.resp none)) =
        .inl { serverAliveCounter := 0, hadTimeout := false } := by
      simp [loopStep, sendKeepAliveRequest, c5Config]
    rw [h2]
    show loopRun c5Config { serverAliveCounter := 0, hadTimeout := false }
      (c5Events n) = _
    rw [ih 0]
    simp

/-- C5: with interval 10ms, timeout 10ms, lag 2s and `ServerAliveCountMax`
1, and probes that always complete exactly 5ms after the timeout fires, the
session is never declared dead: every counted miss (elapsed 15ms, below
timeout + lag) is followed by a tick that consumes the late acknowledgement
as a success, so misses are never consecutive, and with the configured
maximum 1 death would require two consecutive counted misses. This holds on
every prefix of the alternating trace (both after a success and after a
trailing miss). -/
theorem C5_paused_probes_never_dead (n : Nat) :
    stillRunning (loopRun c5Config (loopInit c5Config) (c5Events n)) = true ∧
    stillRunning (loopRun c5Config (loopInit c5Config)
        (c5Events n ++ [missTick 15000000])) = true := by
  have hinit : loopInit c5Config =
      { serverAliveCounter := 1, hadTimeout := false } := rfl
  constructor
  · rw [hinit, c5_run n 1]
    rfl
  · rw [hinit, loopRun_append, c5_run n 1]
    show stillRunning (loopRun c5Config
      { serverAliveCounter := (if n = 0 then 1 else 0), hadTimeout := false }
      [missTick 15000000]) = true
    rw [loopRun_cons,
      loopStep_missTick_fresh c5Config _ 15000000 (by norm_num [c5Config]),
      if_pos (by norm_num [c5Config])]
    rfl

/-- Witness for C6 at a concrete configuration and elapsed time. -/
theorem C6_lagged_timeout_discarded_witness :
    sendKeepAliveRequest (.timeoutFired 3000000000) 10000000 2000000000 = none ∧
    loopStep
        { serverAliveCountMax := 3, serverAliveInterval := 10000000,
          serverAliveTimeout := 10000000, serverAliveLagMax := 2000000000 }
        { serverAliveCounter := 3, hadTimeout := false }
        (.tick (.timeoutFired 3000000000)) =
      loopStep
        { serverAliveCountMax := 3, serverAliveInterval := 10000000,
          serverAliveTimeout := 10000000, serverAliveLagMax := 2000000000 }
        { serverAliveCounter := 3, hadTimeout := false } (.tick (.resp none)) := by
  have h := C6_lagged_timeout_discarded
    { serverAliveCountMax := 3, serverAliveInterval := 10000000,
      serverAliveTimeout := 10000000, serverAliveLagMax := 2000000000 }
    { serverAliveCounter := 3, hadTimeout := false } 3000000000 (by norm_num)
  exact ⟨h.1, h.2.1⟩

theorem mapLookup_mem {α β : Type} [DecidableEq α] {m : List (α × β)} {k : α}
    {e : β} (h : mapLookup m k = some e) : (k, e) ∈ m := by
  induction m with
  | nil => simp [mapLookup] at h
  | cons kv t ih =>
    unfold mapLookup at h
    by_cases hk : kv.1 = k
    · rw [if_pos hk] at h
      have he : kv.2 = e := by simpa using h
      have : kv = (k, e) := by
        cases kv; simp_all
      rw [this] at *
      exact List.mem_cons_self _ _
    · rw [if_neg hk] at h
      exact List.mem_cons_of_mem _ (ih h)

theorem mapLookup_eq_none {α β : Type} [DecidableEq α] {m : List (α × β)}
    {k : α} : mapLookup m k = none ↔ ∀ kv ∈ m, kv.1 ≠ k := by
  induction m with
  | nil => simp [mapLookup]
  | cons kv t ih =>
    unfold mapLookup
    by_cases hk : kv.1 = k
    · simp [hk]
    · simp [hk, ih]

theorem mapLookup_mapErase_self {α β : Type} [DecidableEq α]
    (m : List (α × β)) (k : α) : mapLookup (mapErase m k) k = none := by
  rw [mapLookup_eq_none]
  intro kv hkv
  have := List.of_mem_filter hkv
  simpa using this

theorem mem_mapErase {α β : Type} [DecidableEq α] {m : List (α × β)} {k : α}
    {kv : α × β} (h : kv ∈ mapErase m k) : kv ∈ m ∧ kv.1 ≠ k := by
  refine ⟨List.mem_of_mem_filter h, ?_⟩
  have := List.of_mem_filter h
  simpa using this

theorem mem_mapUpdate {α β : Type} [DecidableEq α] {m : List (α × β)}
    {k : α} {v : β} {kv2 : α × β} (h : kv2 ∈ mapUpdate m k v) :
    kv2 = (k, v) ∨ kv2 ∈ m := by
  unfold mapUpdate at h
  obtain ⟨kv, hkv, heq⟩ := List.mem_map.mp h
  by_cases hk : kv.1 = k
  · rw [if_pos hk] at heq
    exact Or.inl heq.symm
  · rw [if_neg hk] at heq
    exact Or.inr (heq ▸ hkv)

theorem mapUpdate_keys {α β : Type} [DecidableEq α] (m : List (α × β))
    (k : α) (v : β) :
    (mapUpdate m k v).map Prod.fst = m.map Prod.fst := by
  unfold mapUpdate
  rw [List.map_map]
  apply List.map_congr_left
  intro kv _
  by_cases hk : kv.1 = k
  · simp [hk]
  · simp [hk]

theorem mapErase_keys_sublist {α β : Type} [DecidableEq α] (m : List (α × β))
    (k : α) :
    ((mapErase m k).map Prod.fst).Sublist (m.map Prod.fst) :=
  (List.filter_sublist m).map Prod.fst

theorem mapLookup_of_nodup_mem {α β : Type} [DecidableEq α]
    {m : List (α × β)} (hnd : (m.map Prod.fst).Nodup) {k : α} {e : β}
    (h : (k, e) ∈ m) : mapLookup m k = some e := by
  induction m with
  | nil => simp at h
  | cons kv t ih =>
    rw [List.map_cons, List.nodup_cons] at hnd
    rcases List.mem_cons.mp h with heq | hmem
    · rw [← heq]
      unfold mapLookup
      rw [if_pos rfl]
    · unfold mapLookup
      by_cases hk : kv.1 = k
      · exfalso
        apply hnd.1
        rw [hk]
        exact List.mem_map.mpr ⟨(k, e), hmem, rfl⟩
      · rw [if_neg hk]
        exact ih hnd.2 hmem

theorem tryRelease_stale {s : PoolState} {h : Handle} (hs : Stale s h)
    (force : Bool) : s.tryRelease h force = (true, s) := by
  unfold PoolState.tryRelease
  cases hl : mapLookup s.m h.key with
  | none => rfl
  | some e =>
    have hne : e.val ≠ h := hs (h.key, e) (mapLookup_mem hl)
    simp [hne]

theorem release_stale {s : PoolState} {h : Handle} (hs : Stale s h) :
    s.release h = { s with closed := s.closed ++ [h.client] } := by
  unfold PoolState.release
  rw [tryRelease_stale hs]
  simp

theorem tryRelease_closed (s : PoolState) (h : Handle) (force : Bool) :
    ((s.tryRelease h force).2).closed = s.closed := by
  unfold PoolState.tryRelease
  cases mapLookup s.m h.key with
  | none => rfl
  | some e =>
    by_cases hne : e.val ≠ h
    · simp [hne]
    · simp only [hne, if_false]
      split_ifs <;> rfl

theorem tryRelease_nextHandle (s : PoolState) (h : Handle) (force : Bool) :
    ((s.tryRelease h force).2).nextHandle = s.nextHandle := by
  unfold PoolState.tryRelease
  cases mapLookup s.m h.key with
  | none => rfl
  | some e =>
    by_cases hne : e.val ≠ h
    · simp [hne]
    · simp only [hne, if_false]
      split_ifs <;> rfl

theorem forget_closed (s : PoolState) (h : Handle) :
    (s.forget h).closed = s.closed ++ [h.client] := by
  simp [PoolState.forget, tryRelease_closed]

theorem forget_m (s : PoolState) (h : Handle) :
    (s.forget h).m = ((s.tryRelease h true).2).m := rfl

theorem forget_nextHandle (s : PoolState) (h : Handle) :
    (s.forget h).nextHandle = s.nextHandle := by
  show ((s.tryRelease h true).2).nextHandle = s.nextHandle
  exact tryRelease_nextHandle s h true

theorem release_m (s : PoolState) (h : Handle) :
    (s.release h).m = ((s.tryRelease h false).2).m := by
  simp only [PoolState.release]
  split_ifs <;> rfl

theorem release_nextHandle (s : PoolState) (h : Handle) :
    (s.release h).nextHandle = s.nextHandle := by
  simp only [PoolState.release]
  split_ifs
  · exact tryRelease_nextHandle s h false
  · exact tryRelease_nextHandle s h false

theorem poolInv_of_eq {s1 s2 : PoolState} (hm : s2.m = s1.m)
    (hn : s2.nextHandle = s1.nextHandle) (h : PoolInv s1) : PoolInv s2 := by
  obtain ⟨he, hd⟩ := h
  refine ⟨?_, ?_⟩
  · intro kv hkv
    rw [hm] at hkv
    rw [hn]
    exact he kv hkv
  · rw [hm]
    exact hd

theorem stale_of_eq {s1 s2 : PoolState} {h : Handle} (hm : s2.m = s1.m)
    (hs : Stale s1 h) : Stale s2 h := by
  intro kv hkv
  rw [hm] at hkv
  exact hs kv hkv

theorem tryRelease_none (s : PoolState) (h : Handle) (force : Bool)
    (hl : mapLookup s.m h.key = none) : s.tryRelease h force = (true, s) := by
  unfold PoolState.tryRelease
  rw [hl]

theorem tryRelease_some (s : PoolState) (h : Handle) (force : Bool)
    {e : PoolEntry} (hl : mapLookup s.m h.key = some e) :
    s.tryRelease h force =
      if e.val ≠ h then (true, s)
      else if ¬force ∧ e.refCount - 1 > 0 then
        (false,
          { s with m := mapUpdate s.m h.key { e with refCount := e.refCount - 1 } })
      else (true, { s with m := mapErase s.m h.key }) := by
  unfold PoolState.tryRelease
  rw [hl]

theorem poolInv_tryRelease (s : PoolState) (h : Handle) (force : Bool)
    (hinv : PoolInv s) : PoolInv ((s.tryRelease h force).2) := by
  obtain ⟨hent, hnd⟩ := hinv
  cases hl : mapLookup s.m h.key with
  | none =>
    rw [tryRelease_none s h force hl]
    exact ⟨hent, hnd⟩
  | some e =>
    rw [tryRelease_some s h force hl]
    by_cases hne : e.val ≠ h
    · rw [if_pos hne]
      exact ⟨hent, hnd⟩
    · rw [if_neg hne]
      split_ifs with hrc
      · refine ⟨?_, ?_⟩
        · intro kv hkv
          rcases mem_mapUpdate hkv with heq | hmem
          · have he := hent (h.key, e) (mapLookup_mem hl)
            subst heq
            exact ⟨he.1, he.2.1, he.2.2⟩
          · exact hent kv hmem
        · rw [mapUpdate_keys]
          exact hnd
      · refine ⟨?_, ?_⟩
        · intro kv hkv
          exact hent kv (mem_mapErase hkv).1
        · exact hnd.sublist (mapErase_keys_sublist s.m h.key)

theorem stale_tryRelease (s : PoolState) (h2 : Handle) (force : Bool)
    {h : Handle} (hs : Stale s h) : Stale ((s.tryRelease h2 force).2) h := by
  cases hl : mapLookup s.m h2.key with
  | none =>
    rw [tryRelease_none s h2 force hl]
    exact hs
  | some e =>
    rw [tryRelease_some s h2 force hl]
    by_cases hne : e.val ≠ h2
    · rw [if_pos hne]
      exact hs
    · rw [if_neg hne]
      split_ifs with hrc
      · intro kv hkv
        rcases mem_mapUpdate hkv with heq | hmem
        · have he := hs (h2.key, e) (mapLookup_mem hl)
          subst heq
          exact he
        · exact hs kv hmem
      · intro kv hkv
        exact hs kv (mem_mapErase hkv).1

theorem poolInv_release (s : PoolState) (h2 : Handle) (hinv : PoolInv s) :
    PoolInv (s.release h2) :=
  poolInv_of_eq (release_m s h2)
    (by rw [release_nextHandle, tryRelease_nextHandle])
    (poolInv_tryRelease s h2 false hinv)

theorem poolInv_forget (s : PoolState) (h2 : Handle) (hinv : PoolInv s) :
    PoolInv (s.forget h2) :=
  poolInv_of_eq (forget_m s h2)
    (by rw [forget_nextHandle, tryRelease_nextHandle])
    (poolInv_tryRelease s h2 true hinv)

theorem stale_release (s : PoolState) (h2 : Handle) {h : Handle}
    (hs : Stale s h) : Stale (s.release h2) h :=
  stale_of_eq (release_m s h2) (stale_tryRelease s h2 false hs)

theorem stale_forget (s : PoolState) (h2 : Handle) {h : Handle}
    (hs : Stale s h) : Stale (s.forget h2) h :=
  stale_of_eq (forget_m s h2) (stale_tryRelease s h2 true hs)

/-- `forget` leaves no entry holding the forgotten handle: either its entry
was current and is deleted, or it was already stale. Uses the pool
invariant (an entry's handle carries the entry's key, and keys are
unique). -/
theorem forget_makes_stale (s : PoolState) (h : Handle) (hinv : PoolInv s) :
    Stale (s.forget h) h := by
  obtain ⟨hent, hnd⟩ := hinv
  intro kv hkv
  rw [forget_m] at hkv
  revert hkv
  cases hl : mapLookup s.m h.key with
  | none =>
    rw [tryRelease_none s h true hl]
    intro hkv heq
    have hk := (hent kv hkv).1
    rw [heq] at hk
    exact (mapLookup_eq_none.mp hl) kv hkv hk.symm
  | some e =>
    rw [tryRelease_some s h true hl]
    by_cases hne : e.val ≠ h
    · rw [if_pos hne]
      intro hkv heq
      have hk := (hent kv hkv).1
      rw [heq] at hk
      have hsome : mapLookup s.m h.key = some kv.2 := by
        apply mapLookup_of_nodup_mem hnd
        rw [hk]
        exact hkv
      rw [hl] at hsome
      have hekv : e = kv.2 := by simpa using hsome
      exact hne (by rw [hekv, heq])
    · rw [if_neg hne]
      split_ifs with hrc
      · simp at hrc
      · intro hkv heq
        have hm := mem_mapErase hkv
        have hk := (hent kv hm.1).1
        rw [heq] at hk
        exact hm.2 hk.symm

theorem acquire_some (s : PoolState) (key : ClientKey) (ctor : Option Nat)
    {e : PoolEntry} (hl : mapLookup s.m key = some e) :
    s.acquire key ctor =
      if e.removed then s.acquireNew key ctor
      else
        (some e.val,
          { s with m := mapUpdate s.m key { e with refCount := e.refCount + 1 } }) := by
  unfold PoolState.acquire
  rw [hl]

theorem acquire_none (s : PoolState) (key : ClientKey) (ctor : Option Nat)
    (hl : mapLookup s.m key = none) :
    s.acquire key ctor = s.acquireNew key ctor := by
  unfold PoolState.acquire
  rw [hl]

/-- `acquire` preserves the pool invariant, preserves staleness of an
already-allocated stale handle, does not lower the allocator, and never
returns a stale handle. -/
theorem acquire_preserves (s : PoolState) (key : ClientKey) (ctor : Option Nat)
    (h : Handle) (hinv : PoolInv s) (hs : Stale s h)
    (hh : h.hid < s.nextHandle) :
    PoolInv (s.acquire key ctor).2 ∧ Stale (s.acquire key ctor).2 h ∧
      h.hid < (s.acquire key ctor).2.nextHandle ∧
      ∀ h2, (s.acquire key ctor).1 = some h2 → h2 ≠ h := by
  obtain ⟨hent, hnd⟩ := hinv
  cases hl : mapLookup s.m key with
  | some e =>
    have hee := hent (key, e) (mapLookup_mem hl)
    have hrm : e.removed = false := hee.2.2
    rw [acquire_some s key ctor hl, if_neg (by simp [hrm])]
    refine ⟨⟨?_, ?_⟩, ?_, ?_, ?_⟩
    · intro kv hkv
      rcases mem_mapUpdate hkv with heq | hmem
      · subst heq
        exact ⟨hee.1, hee.2.1, hee.2.2⟩
      · exact hent kv hmem
    · rw [mapUpdate_keys]
      exact hnd
    · intro kv hkv
      rcases mem_mapUpdate hkv with heq | hmem
      · subst heq
        exact hs (key, e) (mapLookup_mem hl)
      · exact hs kv hmem
    · exact hh
    · intro h2 hh2
      have hev : e.val = h2 := by simpa using hh2
      rw [← hev]
      exact hs (key, e) (mapLookup_mem hl)
  | none =>
    rw [acquire_none s key ctor hl]
    cases ctor with
    | none =>
      refine ⟨⟨hent, hnd⟩, hs, hh, ?_⟩
      intro h2 hh2
      simp [PoolState.acquireNew] at hh2
    | some cid =>
      have hrepr : s.acquireNew key (some cid) =
          (some { hid := s.nextHandle, client := cid, key := key },
            { s with
              m := (key,
                { val := { hid := s.nextHandle, client := cid, key := key },
                  refCount := 1, removed := false }) :: s.m
              nextHandle := s.nextHandle + 1 }) := rfl
      rw [hrepr]
      refine ⟨⟨?_, ?_⟩, ?_, ?_, ?_⟩
      · intro kv hkv
        rcases List.mem_cons.mp hkv with heq | hmem
        · subst heq
          refine ⟨rfl, ?_, rfl⟩
          show s.nextHandle < s.nextHandle + 1
          omega
        · have ht := hent kv hmem
          refine ⟨ht.1, ?_, ht.2.2⟩
          have h1 := ht.2.1
          show kv.2.val.hid < s.nextHandle + 1
          omega
      · rw [List.map_cons]
        refine List.nodup_cons.mpr ⟨?_, hnd⟩
        intro hmem
        obtain ⟨kv, hkv, hfst⟩ := List.mem_map.mp hmem
        exact (mapLookup_eq_none.mp hl) kv hkv hfst
      · intro kv hkv
        rcases List.mem_cons.mp hkv with heq | hmem
        · subst heq
          intro hcontra
          have hx : s.nextHandle = h.hid := congrArg Handle.hid hcontra
          omega
        · exact hs kv hmem
      · show h.hid < s.nextHandle + 1
        omega
      · intro h2 hh2
        have h2eq : { hid := s.nextHandle, client := cid, key := key } = h2 := by
          simpa using hh2
        intro hcontra
        rw [← h2eq] at hcontra
        have hx : s.nextHandle = h.hid := congrArg Handle.hid hcontra
        omega

/-- Once a handle is stale in an invariant-satisfying pool, no sequence of
pool operations ever hands it out again, and it stays stale. -/
theorem runPool_never_returns_stale (ops : List PoolOp) :
    ∀ (s : PoolState) (h : Handle), PoolInv s → Stale s h →
      h.hid < s.nextHandle →
      PoolInv (runPool s ops).1 ∧ Stale (runPool s ops).1 h ∧
        h.hid < (runPool s ops).1.nextHandle ∧ h ∉ (runPool s ops).2 := by
  induction ops with
  | nil =>
    intro s h h1 h2 h3
    exact ⟨h1, h2, h3, by simp [runPool]⟩
  | cons op ops ih =>
    intro s h h1 h2 h3
    cases op with
    | acquireOp key ctor =>
      obtain ⟨hi, hs2, hh2, hr⟩ := acquire_preserves s key ctor h h1 h2 h3
      obtain ⟨ji, js, jh, jm⟩ := ih (s.acquire key ctor).2 h hi hs2 hh2
      refine ⟨ji, js, jh, ?_⟩
      show h ∉ (s.acquire key ctor).1.toList ++ (runPool (s.acquire key ctor).2 ops).2
      intro hmem
      rcases List.mem_append.mp hmem with hx | hx
      · cases hc : (s.acquire key ctor).1 with
        | none => rw [hc] at hx; simp at hx
        | some h2 =>
          rw [hc] at hx
          simp at hx
          exact hr h2 hc (by rw [hx])
      · exact jm hx
    | releaseOp hx =>
      exact ih (s.release hx) h (poolInv_release s hx h1)
        (stale_release s hx h2) (by rw [release_nextHandle]; exact h3)
    | forgetOp hx =>
      exact ih (s.forget hx) h (poolInv_forget s hx h1)
        (stale_forget s hx h2) (by rw [forget_nextHandle]; exact h3)

theorem loopStep_exit_closes (c : KeepAliveConfig) (st : LoopState)
    (ev : LoopEvent) (ex : LoopExit) (b : Bool)
    (h : loopStep c st ev = .inr (ex, b)) : b = true := by
  cases ev with
  | waitDone =>
    simp [loopStep] at h
    exact h.2
  | readActivity => simp [loopStep] at h
  | tick o =>
    cases hr : sendKeepAliveRequest o c.serverAliveTimeout c.serverAliveLagMax with
    | none => simp [loopStep, hr] at h
    | some e =>
      cases e with
      | eof =>
        simp [loopStep, hr] at h
        exact h.2
      | kaTimeout =>
        simp only [loopStep, hr] at h
        revert h
        split_ifs <;> intro h <;> simp at h
        all_goals exact h.2
      | other n =>
        simp [loopStep, hr] at h
        exact h.2

theorem loopRun_exit_closes (c : KeepAliveConfig) (evs : List LoopEvent) :
    ∀ (st : LoopState) (ex : LoopExit) (b : Bool),
      loopRun c st evs = .inr (ex, b) → b = true := by
  induction evs with
  | nil => intro st ex b h; simp [loopRun] at h
  | cons ev evs ih =>
    intro st ex b h
    rw [loopRun_cons] at h
    cases hstep : loopStep c st ev with
    | inl st2 =>
      rw [hstep] at h
      exact ih st2 ex b h
    | inr p =>
      rw [hstep] at h
      simp only [Sum.inr.injEq] at h
      rw [h] at hstep
      exact loopStep_exit_closes c st ev ex b hstep

/-- C1 (counterexample): two callers acquire the same pooled handle (the
second `acquire` returns the very same `sshPooledTunnel`); one `forget`s it
(first `Close()`), and the other's subsequent `release` of the now-stale
handle takes the `!has || e.val != value` early return of `tryRelease`,
which reports `last = true`, so `release` invokes `Close()` on the same
client a second time: `Close()` is invoked twice, not exactly once, for this
entry. -/
theorem C1_counterexample_release_after_forget_double_close :
    (c1Pool.acquire c1Key none).1 = some c1Handle ∧
      closeCount (((c1Pool.acquire c1Key none).2.forget c1Handle).release
        c1Handle) 0 = 2 := by
  decide

/-- C1 (amended): after `forget(h)` — even after a new entry has been
created under the same key by a later `acquire` — a subsequent `release(h)`
of the stale handle leaves the pool map completely unchanged (the newer
entry, its reference count, and every other entry are untouched, and no
entry is removed), but it invokes `Close()` on `h`'s client once more; the
client's `Close()` is thus invoked once per `forget`/stale-`release` call on
the handle rather than exactly once per entry. -/
theorem C1_stale_release_is_pool_no_op_but_closes_again (s : PoolState)
    (h : Handle) (ctor : Option Nat) (hinv : PoolInv s)
    (hh : h.hid < s.nextHandle) :
    Stale (s.forget h) h ∧
    (((s.forget h).acquire h.key ctor).2.release h).m =
      ((s.forget h).acquire h.key ctor).2.m ∧
    (((s.forget h).acquire h.key ctor).2.release h).closed =
      ((s.forget h).acquire h.key ctor).2.closed ++ [h.client] := by
  have h1 : Stale (s.forget h) h := forget_makes_stale s h hinv
  have hinv2 : PoolInv (s.forget h) := poolInv_forget s h hinv
  have hh2 : h.hid < (s.forget h).nextHandle := by
    rw [forget_nextHandle]
    exact hh
  obtain ⟨hi3, hs3, hn3, hr3⟩ :=
    acquire_preserves (s.forget h) h.key ctor h hinv2 h1 hh2
  have hrel := release_stale hs3
  exact ⟨h1, by rw [hrel], by rw [hrel]⟩

/-- Witness for the amended C1: in the concrete two-user scenario the stale
release leaves the map unchanged and appends one more `Close()`. -/
theorem C1_stale_release_is_pool_no_op_but_closes_again_witness :
    Stale (c1Pool.forget c1Handle) c1Handle ∧
    (((c1Pool.forget c1Handle).acquire c1Handle.key (some 1)).2.release
        c1Handle).m =
      ((c1Pool.forget c1Handle).acquire c1Handle.key (some 1)).2.m ∧
    (((c1Pool.forget c1Handle).acquire c1Handle.key (some 1)).2.release
        c1Handle).closed =
      ((c1Pool.forget c1Handle).acquire c1Handle.key (some 1)).2.closed ++
        [c1Handle.client] :=
  C1_stale_release_is_pool_no_op_but_closes_again c1Pool c1Handle (some 1)
    (by constructor <;> decide) (by decide)

/-- C4: whenever `keepAliveLoop` declares the session dead, the return path
has invoked `cli.Close()` (the `closedClient` flag of the exit), and the
spec-modelled attach point then performs the pool's `forget`: the pool logs
one more `Close()` of the dead client, the dead handle is no longer held by
any entry, and no sequence of future pool operations (in particular no
future `acquire` with the same key) ever returns the dead handle. -/
theorem C4_death_closes_client_and_evicts (c : KeepAliveConfig)
    (evs : List LoopEvent) (byTimeout : Bool) (closedClient : Bool)
    (hdead : loopRun c (loopInit c) evs = .inr (.dead byTimeout, closedClient))
    (s : PoolState) (h : Handle) (hinv : PoolInv s)
    (hh : h.hid < s.nextHandle) :
    closedClient = true ∧
    (keepAliveOnDeath s h).closed = s.closed ++ [h.client] ∧
    Stale (keepAliveOnDeath s h) h ∧
    ∀ ops : List PoolOp, h ∉ (runPool (keepAliveOnDeath s h) ops).2 := by
  refine ⟨?_, ?_, ?_, ?_⟩
  · exact loopRun_exit_closes c evs (loopInit c) (.dead byTimeout)
      closedClient hdead
  · exact forget_closed s h
  · exact forget_makes_stale s h hinv
  · intro ops
    refine (runPool_never_returns_stale ops (keepAliveOnDeath s h) h
      (poolInv_forget s h hinv) (forget_makes_stale s h hinv) ?_).2.2.2
    show h.hid < (s.forget h).nextHandle
    rw [forget_nextHandle]
    exact hh

/-- Witness for C4: a one-miss death (`ServerAliveCountMax = 0`) on the
concrete pool; the dead client is closed again by the eviction and a
subsequent `acquire` of the same key does not return the dead handle. -/
theorem C4_death_closes_client_and_evicts_witness :
    (keepAliveOnDeath c4Pool c4Handle).closed = c4Pool.closed ++ [5] ∧
    c4Handle ∉
      (runPool (keepAliveOnDeath c4Pool c4Handle)
        [PoolOp.acquireOp c4Key (some 6)]).2 := by
  have h := C4_death_closes_client_and_evicts c4Config [missTick 0] true true
    (by decide) c4Pool c4Handle (by constructor <;> decide) (by decide)
  exact ⟨h.2.1, h.2.2.2 [PoolOp.acquireOp c4Key (some 6)]⟩

/-- C2: for a valid descriptor, when the acquired tunnel's sub-dial fails
for a reason that is not the caller's cancellation, `DialContext` forgets
that tunnel and retries the whole acquire-and-dial sequence, for a total of
at most 2 attempts, returning the (wrapped) last underlying error when both
attempts fail, and a working connection when the second attempt succeeds;
when the failure is the caller's cancellation, the tunnel is released
normally and the cancellation error is returned with no retry. -/
theorem C2_forget_retry_once_release_on_cancel (c : Config)
    (env : Nat → AttemptResult) (e1 e2 : GoErr) (hc : c.canDial = none) :
    (env 0 = .dialFail e1 false → env 1 = .dialFail e2 false →
      DialContext c env =
        (.fail (some (.wrap e2)),
          [.acquired 0, .forgot 0, .acquired 1, .forgot 1])) ∧
    (env 0 = .dialFail e1 true →
      DialContext c env = (.fail (some e1), [.acquired 0, .released 0])) ∧
    (env 0 = .dialFail e1 false → env 1 = .dialOk →
      DialContext c env =
        (.conn 1, [.acquired 0, .forgot 0, .acquired 1, .keepAliveStarted 1])) := by
  have hdc : DialContext c env = dialLoop env dialAttempts 0 none := by
    unfold DialContext
    rw [hc]
  refine ⟨?_, ?_, ?_⟩
  · intro h0 h1
    rw [hdc]
    simp [dialAttempts, dialLoop, h0, h1, wrapErr]
  · intro h0
    rw [hdc]
    simp [dialAttempts, dialLoop, h0]
  · intro h0 h1
    rw [hdc]
    simp [dialAttempts, dialLoop, h0, h1]

/-- Witness for C2: with both attempts failing (not cancelled), the dial
returns the wrapped second error after acquiring and forgetting twice. -/
theorem C2_forget_retry_once_release_on_cancel_witness :
    DialContext c2Config c2Env =
      (.fail (some (.wrap (.tag 1))),
        [.acquired 0, .forgot 0, .acquired 1, .forgot 1]) :=
  (C2_forget_retry_once_release_on_cancel c2Config c2Env (.tag 0) (.tag 1)
    rfl).1 rfl rfl

/-- C9: a descriptor missing principal, host or sub-address makes
`DialContext` fail fast: the returned error is the wrapped join of exactly
one named error per missing required field, no pool operation or tunnel
construction happens (the event trace is empty), and there is no retry. -/
theorem C9_missing_fields_fail_fast (c : Config) (env : Nat → AttemptResult)
    (h : c.username = "" ∨ c.host = "" ∨ c.net = "" ∨ c.addr = "") :
    DialContext c env = (.fail (some (.wrap (.join c.canDialErrs))), []) ∧
    c.canDialErrs ≠ [] ∧
    (GoErr.userRequired ∈ c.canDialErrs ↔ c.username = "") ∧
    (GoErr.hostRequired ∈ c.canDialErrs ↔ c.host = "") ∧
    (GoErr.addrRequired ∈ c.canDialErrs ↔ (c.net = "" ∨ c.addr = "")) := by
  have hne : c.canDialErrs ≠ [] := by
    unfold Config.canDialErrs
    rcases h with h | h | h | h
    · simp [h]
    · rw [if_pos h]
      intro hcontra
      simp at hcontra
    · rw [if_pos (Or.inl h)]
      intro hcontra
      simp at hcontra
    · rw [if_pos (Or.inr h)]
      intro hcontra
      simp at hcontra
  have hcd : c.canDial = some (.join c.canDialErrs) := by
    rcases hx : c.canDialErrs with _ | ⟨a, l⟩
    · exact absurd hx hne
    · unfold Config.canDial errorsJoin
      rw [hx]
  refine ⟨?_, hne, ?_, ?_, ?_⟩
  · unfold DialContext
    rw [hcd]
  · unfold Config.canDialErrs
    split_ifs <;> simp_all
  · unfold Config.canDialErrs
    split_ifs <;> simp_all
  · unfold Config.canDialErrs
    split_ifs <;> simp_all

/-- Witness for C9: a descriptor with an empty username fails fast with the
named error and an empty event trace. -/
theorem C9_missing_fields_fail_fast_witness :
    DialContext c9Config c2Env =
      (.fail (some (.wrap (.join [GoErr.userRequired]))), []) :=
  (C9_missing_fields_fail_fast c9Config c2Env (Or.inl rfl)).1

theorem runCloses_latched (releaseErr : Option GoErr)
    (es : List (Option GoErr)) :
    runCloses releaseErr { closeOnceDone := true, closeErr := releaseErr } es =
      (es.map (fun ei => (errorsJoin2 ei releaseErr, false)),
        { closeOnceDone := true, closeErr := releaseErr }) := by
  induction es with
  | nil => rfl
  | cons a l ih => simp [runCloses, tunnelConnClose, ih]

theorem filter_snd_false {α : Type} (f : α → Option GoErr)
    (l : List α) :
    ((l.map fun ei => (f ei, false)).filter fun r : Option GoErr × Bool =>
      r.2).length = 0 := by
  induction l with
  | nil => rfl
  | cons a t ih => simp [ih]

/-- C7: across any sequence of `Close` calls on one `tunnelConn`, the
`closeOnce` latch makes the handle release run exactly once (on the first
call); every call, first or later, performs the sub-connection close and
returns `errors.Join` of its own sub-connection close error with the single
recorded release error, neither shadowing the other. -/
theorem C7_close_once_release_and_join (releaseErr e : Option GoErr)
    (es : List (Option GoErr)) :
    runCloses releaseErr { closeOnceDone := false, closeErr := none }
        (e :: es) =
      ((errorsJoin2 e releaseErr, true) ::
          es.map (fun ei => (errorsJoin2 ei releaseErr, false)),
        { closeOnceDone := true, closeErr := releaseErr }) ∧
    ((runCloses releaseErr { closeOnceDone := false, closeErr := none }
        (e :: es)).1.filter fun r => r.2).length = 1 := by
  have hmain : runCloses releaseErr
      { closeOnceDone := false, closeErr := none } (e :: es) =
      ((errorsJoin2 e releaseErr, true) ::
          es.map (fun ei => (errorsJoin2 ei releaseErr, false)),
        { closeOnceDone := true, closeErr := releaseErr }) := by
    simp [runCloses, tunnelConnClose, runCloses_latched]
  refine ⟨hmain, ?_⟩
  rw [hmain]
  simp only [List.filter_cons]
  simp [filter_snd_false (fun ei => errorsJoin2 ei releaseErr) es]

/-- C8: the pool key is exactly a function of the principal, the password
fingerprint, the `host:port` address (default port 22 applied when the port
is unset) and the resolved keep-alive configuration: two descriptors
differing only in sub-address (and parameters) produce equal keys; the key
records the liveness configuration it is given; and the three secret states
— absent, present-but-empty, non-empty (fingerprinted, not stored raw) —
give pairwise distinct fingerprints. -/
theorem C8_pool_key_components (md5hex : String → String) (c c2 : Config)
    (ka : KeepAliveConfig) (hu : c2.username = c.username)
    (hp : c2.password = c.password) (hh : c2.host = c.host)
    (hpt : c2.port = c.port) :
    Config.clientKey md5hex c2 ka = Config.clientKey md5hex c ka ∧
    (Config.clientKey md5hex c ka).keepAlive = ka ∧
    (c.port = 0 →
      (Config.clientKey md5hex c ka).addr =
        c.host ++ ":" ++ toString DefaultPort) ∧
    ∀ p : String, p ≠ "" →
      passKey md5hex none ≠ passKey md5hex (some "") ∧
      passKey md5hex none ≠ passKey md5hex (some p) ∧
      passKey md5hex (some "") ≠ passKey md5hex (some p) := by
  refine ⟨?_, rfl, ?_, ?_⟩
  · simp [Config.clientKey, Config.sshAddr, hu, hp, hh, hpt]
  · intro h0
    simp [Config.clientKey, Config.sshAddr, h0]
  · intro p hp0
    have hsome : passKey md5hex (some p) = "-*" ++ md5hex p := by
      simp [passKey, hp0]
    refine ⟨?_, ?_, ?_⟩
    · rw [show passKey md5hex none = "-" from rfl,
        show passKey md5hex (some "") = "*" from rfl]
      decide
    · rw [hsome]
      intro heq
      have hlen := congrArg String.length heq
      rw [String.length_append] at hlen
      have h1 : ("-" : String).length = 1 := rfl
      have h2 : ("-*" : String).length = 2 := rfl
      rw [show passKey md5hex none = "-" from rfl] at hlen
      rw [h1, h2] at hlen
      omega
    · rw [hsome]
      intro heq
      have hlen := congrArg String.length heq
      rw [String.length_append] at hlen
      have h1 : ("*" : String).length = 1 := rfl
      have h2 : ("-*" : String).length = 2 := rfl
      rw [show passKey md5hex (some "") = "*" from rfl] at hlen
      rw [h1, h2] at hlen
      omega

/-- Witness for C8 with a concrete stand-in digest and two descriptors
differing only in sub-address. -/
theorem C8_pool_key_components_witness :
    Config.clientKey (fun s => s) c8ConfigB {} =
      Config.clientKey (fun s => s) c8ConfigA {} ∧
    passKey (fun s => s) none ≠ passKey (fun s => s) (some "pw") := by
  have h := C8_pool_key_components (fun s => s) c8ConfigA c8ConfigB {}
    rfl rfl rfl rfl
  exact ⟨h.1, (h.2.2.2 "pw" (by decide)).2.1⟩

/-- The comparisons that pass through Unicode simple folding behave as in
Go: U+017F LATIN SMALL LETTER LONG S folds with `S` and U+212A KELVIN SIGN
folds with `K`/`k`, while distinct parameter names stay distinct. -/
theorem eqFold_matches_unicode_simple_folds :
    eqFold "ſerverAliveInterval" "ServerAliveInterval" = true ∧
    eqFold "\u212AelvinKey" "KELVINKEY" = true ∧
    eqFold "ServerAliveInterval" "ServerAliveTimeout" = false := by
  decide

/-- A parameter map whose key reaches `ServerAliveInterval` only through a
Unicode simple fold (long s) is recognized: the interval resolves to 5s and
the keep-alive loop is started, exactly as the program does. -/
theorem makeKeepAliveConfig_folded_key_enables_loop :
    makeKeepAliveConfig [("ſerverAliveInterval", ["5"])] =
      { serverAliveCountMax := 3, serverAliveInterval := 5000000000,
        serverAliveTimeout := 5000000000, serverAliveLagMax := 2000000000 } ∧
    keepAliveStartsLoop (makeKeepAliveConfig [("ſerverAliveInterval", ["5"])]) =
      true := by
  decide

end MyTunnel
